import Mathlib

set_option maxHeartbeats 1000000
set_option maxRecDepth 4000

/-!
Verification development for the autonomous research orchestrator.

The Python sources are embedded shallowly:
* pure string manipulation becomes Lean functions on `String`;
* every external effect (LLM completion calls, vector-store reads and
  writes, arXiv / web search) is a field of an explicit environment
  record, returning `Except String _` when the underlying call can raise
  (the `String` is the Python exception text);
* Python dicts with a fixed key set become structures; a key that a
  given code path never sets is an `Option` field holding `none`
  (mirroring `dict.get` with a default).
-/

/-! ## String helpers mirroring Python primitives -/

/-- Boolean infix test on character lists: does `pat` occur contiguously
inside `l`? -/
def charsInfix (pat : List Char) : List Char → Bool
  | [] => pat.isEmpty
  | c :: t => pat.isPrefixOf (c :: t) || charsInfix pat t

/-- Python `pat in s` (substring containment). -/
def containsStr (s pat : String) : Bool :=
  charsInfix pat.data s.data

deriving instance DecidableEq for Except

/-- Python `s.lower()` restricted to the ASCII fragment (all the strings
the planner tests for are ASCII, where `Char.toLower` agrees with
Python `str.lower`). -/
def lowerStr (s : String) : String :=
  ⟨s.data.map Char.toLower⟩

/-- Python `s[:n]` on a string: the first `n` characters. -/
def strTake (s : String) (n : Nat) : String :=
  ⟨s.data.take n⟩

/-! ## Supervisor planning (src/src/agents/supervisor.py, plan_workflow)

`plan_workflow` sends a planning prompt to the supervisor's LLM and then
parses the response by keyword membership: each of the four agent names
that occurs in the lowercased response text is appended, in the fixed
order memory, research, analysis, summary; if none occurs the default
four-stage workflow is returned. -/

namespace SupervisorAgent

/-- The planning prompt built from the user request (the f-string at the
top of `plan_workflow`). -/
def planningPrompt (request : String) : String :=
  "\nUser Request: " ++ request ++
  "\n\nAvailable Agents: research, analysis, summary, memory\n\n" ++
  "Plan the optimal agent execution sequence. Return a simple list like:\n" ++
  "[\"memory\", \"research\", \"analysis\", \"summary\"]\n\n" ++
  "Consider:\n- Does this need research first?\n- Is analysis of data required?\n" ++
  "- Should memory be checked for context?\n- Is a summary/report the final output?\n"

/-- The fixed order in which `plan_workflow` appends agent names. -/
def agentOrder : List String := ["memory", "research", "analysis", "summary"]

/-- `plan_workflow`: invoke the LLM on the planning prompt (the call can
raise, which propagates), lowercase the response, keep the agent names
occurring in it in the fixed order, and fall back to the default
workflow when the parse is empty. -/
def plan_workflow (llm : String → Except String String) (request : String) :
    Except String (List String) := do
  let response ← llm (planningPrompt request)
  let content := lowerStr response
  let workflow := agentOrder.filter (fun name => containsStr content name)
  if workflow.isEmpty then
    pure ["memory", "research", "analysis", "summary"]
  else
    pure workflow

end SupervisorAgent

open SupervisorAgent

/-- Planner used as the C1 counterexample: a fixed, deterministic LLM
whose reply to every prompt names all four agents. -/
def allAgentsPlanner : String → Except String String :=
  fun _ => .ok "Plan: memory, research, analysis, summary"

/-- Planner used to witness the amended C1 theorem. -/
def threeStagePlanner : String → Except String String :=
  fun _ => .ok "Check memory, do research, then write a summary."

/-- Planner whose response mentions no agent name at all. -/
def unparseablePlanner : String → Except String String :=
  fun _ => .ok "I cannot help with that."

/-- Planner used to witness C10. -/
def memoryOnlyPlanner : String → Except String String :=
  fun _ => .ok "just use memory"

/-! ## ChromaMemory (src/tools/chroma_memory.py)

The ChromaDB client is an external collaborator; its collections are
modelled as insertion-ordered lists of stored entries, and the behavior
of its `add` / `query` calls is modelled after the chromadb contract:
`add` skips ids already present in the collection (chromadb logs a
warning and keeps the existing record; other chroma versions raise on a
duplicate id instead — under both contracts the existing record is
never replaced), and `query` returns nearest-neighbor selections drawn
from the collection, or raises when the backing index is unreachable.
Python-side exceptions are the `Except.error` branches; `store_papers` /
`search_papers` catch all of them, which the embedding reflects by
being total functions. -/

/-- Metadata record built by `store_papers` for one paper. -/
structure ChromaMeta where
  title : String
  authors : String
  published : String
  categories : String
  arxiv_id : String
  pdf_url : String
  arxiv_url : String
  primary_category : String
  stored_at : String
  deriving DecidableEq, Repr

/-- One entry of a chroma collection: id, embedded document text, and
metadata. -/
structure StoredEntry where
  id : String
  document : String
  metadata : ChromaMeta
  deriving DecidableEq, Repr

/-- External behavior of the chroma client that the repository code
calls into. `create_ok` is whether `get_or_create_collection` succeeds
for a name; `add_ok` is whether `collection.add` itself succeeds (e.g.
the embedding function is reachable); `query_ok` is whether
`collection.query` succeeds; `select` is the embedding index's
nearest-neighbor choice (indices into the collection, in the index's
ranking order); `distance` is the embedding distance between a query
and a document; `md5_hex` is `hashlib.md5(...).hexdigest()`; `now` is
`datetime.now().isoformat()`. -/
structure ChromaBackend where
  create_ok : String → Bool
  add_ok : Bool
  query_ok : Bool
  select : String → List StoredEntry → Nat → List Nat
  distance : String → String → Rat
  md5_hex : String → String
  now : String

/-- State of the persistent chroma database: collection name to its
entries. A name not in the list is an (implicitly empty) collection
that `get_or_create_collection` creates lazily. -/
structure ChromaState where
  collections : List (String × List StoredEntry)
  deriving DecidableEq, Repr

/-- Contents of a collection ([] for an absent, lazily-created one). -/
def getCollection (st : ChromaState) (name : String) : List StoredEntry :=
  (st.collections.lookup name).getD []

/-- Replace (or create) a collection's contents. -/
def setAssoc : List (String × List StoredEntry) → String → List StoredEntry →
    List (String × List StoredEntry)
  | [], name, docs => [(name, docs)]
  | (k, w) :: t, name, docs =>
    if k = name then (name, docs) :: t else (k, w) :: setAssoc t name docs

/-- State with one collection's contents replaced. -/
def setCollection (st : ChromaState) (name : String)
    (docs : List StoredEntry) : ChromaState :=
  ⟨setAssoc st.collections name docs⟩

/-- The external `collection.add` contract: entries whose id is already
present (in the collection or earlier in the same call) are skipped;
fresh ids are appended in order. -/
def chromaAdd (docs : List StoredEntry) (entries : List StoredEntry) :
    List StoredEntry :=
  entries.foldl
    (fun acc e => if acc.any (fun d => d.id == e.id) then acc else acc ++ [e])
    docs

/-- Input to `store_papers`: a paper dict (missing keys modelled by the
`.get` defaults) or a malformed element whose processing raises. -/
structure PaperRecord where
  id : String := ""
  title : String := ""
  summary : String := ""
  authors : List String := []
  published : String := ""
  categories : List String := []
  pdf_url : String := ""
  arxiv_url : String := ""
  primary_category : String := ""
  deriving DecidableEq, Repr

inductive PaperInput where
  | valid (p : PaperRecord)
  | malformed (msg : String)
  deriving DecidableEq, Repr

/-- The entry `store_papers` builds from one paper dict: document text
`title ++ "\n\n" ++ summary`, joined-string metadata, and the paper id
(or an md5 of the title when the id is empty). -/
def buildEntry (be : ChromaBackend) (p : PaperRecord) : StoredEntry :=
  { id := if p.id ≠ "" then p.id else be.md5_hex p.title
    document := p.title ++ "\n\n" ++ p.summary
    metadata :=
      { title := p.title
        authors := String.intercalate ", " p.authors
        published := p.published
        categories := String.intercalate ", " p.categories
        arxiv_id := p.id
        pdf_url := p.pdf_url
        arxiv_url := p.arxiv_url
        primary_category := p.primary_category
        stored_at := be.now } }

/-- The per-paper loop of `store_papers`; a malformed element raises
(first one wins, as in the Python loop). -/
def buildEntries (be : ChromaBackend) : List PaperInput →
    Except String (List StoredEntry)
  | [] => pure []
  | .malformed msg :: _ => .error msg
  | .valid p :: rest => do
    let es ← buildEntries be rest
    pure (buildEntry be p :: es)

/-- `store_papers`: get or create the collection (returning `False` when
that yields `None`), build the documents/metadata/id lists (any raise is
caught and yields `False` with nothing written), call `collection.add`
(a raise there is likewise caught before anything is written), and
return `True`. -/
def store_papers (be : ChromaBackend) (papers : List PaperInput)
    (collection_name : String) (st : ChromaState) : Bool × ChromaState :=
  if be.create_ok collection_name = false then
    (false, st)
  else
    match buildEntries be papers with
    | .error _ => (false, st)
    | .ok entries =>
      if be.add_ok = false then
        (false, st)
      else
        (true,
          setCollection st collection_name
            (chromaAdd (getCollection st collection_name) entries))

/-- Output record of `search_papers` for one hit. -/
structure PaperOut where
  id : String
  title : String
  authors : List String
  summary : String
  published : String
  categories : List String
  arxiv_id : String
  pdf_url : String
  arxiv_url : String
  primary_category : String
  similarity_score : Rat
  stored_at : String
  deriving DecidableEq, Repr

/-- Python `doc.split('\n\n', 1)[1] if '\n\n' in doc else doc` on the
underlying character list. -/
def afterSepChars : List Char → Option (List Char)
  | [] => none
  | c :: t =>
    if ['\n', '\n'].isPrefixOf (c :: t) then some ((c :: t).drop 2)
    else afterSepChars t

def afterFirstSep (s : String) : String :=
  match afterSepChars s.data with
  | some l => ⟨l⟩
  | none => s

/-- Python `m.split(', ') if m else []`. -/
def splitJoined (m : String) : List String :=
  if m = "" then [] else m.splitOn ", "

/-- `search_papers`: get or create the collection (`[]` when that yields
`None`), query it (any raise is caught and yields `[]`), and format each
returned hit, converting distance to `similarity = 1 - distance`. -/
def search_papers (be : ChromaBackend) (query : String)
    (collection_name : String) (n_results : Nat) (st : ChromaState) :
    List PaperOut :=
  if be.create_ok collection_name = false then
    []
  else if be.query_ok = false then
    []
  else
    let docs := getCollection st collection_name
    let chosen :=
      (be.select query docs n_results).filterMap (fun i => docs.get? i)
    chosen.map (fun e =>
      { id := e.id
        title := e.metadata.title
        authors := splitJoined e.metadata.authors
        summary := afterFirstSep e.document
        published := e.metadata.published
        categories := splitJoined e.metadata.categories
        arxiv_id := e.metadata.arxiv_id
        pdf_url := e.metadata.pdf_url
        arxiv_url := e.metadata.arxiv_url
        primary_category := e.metadata.primary_category
        similarity_score := 1 - be.distance query e.document
        stored_at := e.metadata.stored_at })

/-! ### Concrete chroma fixtures for the store claims -/

/-- Backend used for the C8 witness: index reachable, collections
creatable. -/
def plainBackend : ChromaBackend :=
  { create_ok := fun _ => true
    add_ok := true
    query_ok := true
    select := fun _ _ _ => []
    distance := fun _ _ => 0
    md5_hex := fun _ => "d41d8cd98f00b204e9800998ecf8427e"
    now := "2026-10-12T00:00:00" }

/-- First store of the C2 scenario: id `2401.00001`, body `first
version`. -/
def paperV1 : PaperInput :=
  .valid { id := "2401.00001", title := "A", summary := "first version" }

/-- Second store of the C2 scenario: same id, body `second version`. -/
def paperV2 : PaperInput :=
  .valid { id := "2401.00001", title := "A", summary := "second version" }

/-- Database state after storing `paperV1` and then `paperV2` into the
collection `papers`, starting from an empty database. -/
def stC2 : ChromaState :=
  (store_papers plainBackend [paperV2] "papers"
    (store_papers plainBackend [paperV1] "papers" ⟨[]⟩).2).2

/-! ## Agent execution environment

Every external effect of the `src/src` pipeline is a field of `Env`:
the two LLM backends (`LLMFactory.get_groq_llm` / `get_gemini_llm`),
the langchain-chroma vector store used by `MemoryManager`
(`similarity_search` / `add_documents`, keyed by collection name), and
the research tools. `search_web` is total because the tool catches all
its exceptions and always returns a result dict; the others can raise.
Rendering of lists/dicts into prompt text abstracts the exact Python
`repr` / `json.dumps` formatting (no claim depends on prompt text). -/

/-- One arXiv hit as returned by the `search_arxiv` tool. -/
structure ArxivPaper where
  title : String
  authors : List String
  summary : String
  pdf_url : String
  published : String
  categories : List String
  deriving DecidableEq, Repr

/-- The dict returned by the `search_web` tool (its `results` list;
the tool always returns one, falling back to `[]` on error). -/
structure WebResult where
  results : List String
  deriving DecidableEq, Repr

/-- Metadata dict passed to `MemoryManager.store_research`; keys not set
by a given agent are `none`. -/
structure StoreMeta where
  agent : String
  task : String
  sources : Option Nat := none
  timestamp : Option String := none
  data_sources : Option Nat := none
  content_length : Option Nat := none
  deriving DecidableEq, Repr

structure Env where
  groq_invoke : String → Except String String
  gemini_invoke : String → Except String String
  similarity_search : String → String → Nat → Except String (List String)
  add_documents : String → String → StoreMeta → Except String (List String)
  search_arxiv : String → Nat → Except String (List ArxivPaper)
  search_web : String → WebResult

/-- Prompt-text rendering of one arXiv result (abstracts Python repr). -/
def renderArxivPaper (p : ArxivPaper) : String :=
  p.title ++ " | " ++ String.intercalate ", " p.authors ++ " | " ++
    p.summary ++ " | " ++ p.pdf_url ++ " | " ++ p.published ++ " | " ++
    String.intercalate ", " p.categories

def renderArxivPapers (l : List ArxivPaper) : String :=
  String.intercalate "; " (l.map renderArxivPaper)

def renderWebResult (w : WebResult) : String :=
  String.intercalate "; " w.results

/-! ### MemoryManager (src/src/utils/memory_manager.py) -/

namespace MemoryManager

/-- `retrieve_similar`: delegate to the vector store (can raise). -/
def retrieve_similar (env : Env) (collection query : String) (k : Nat) :
    Except String (List String) :=
  env.similarity_search collection query k

/-- The `"Context i: ..."` lines of `get_context`, numbered from 1. -/
def contextParts : Nat → List String → List String
  | _, [] => []
  | i, d :: ds => ("Context " ++ toString i ++ ": " ++ d) :: contextParts (i + 1) ds

/-- `get_context`: retrieve similar documents and format them, or the
fixed no-context sentence when none are found. No exception handling:
a vector-store failure propagates. -/
def get_context (env : Env) (collection query : String) (max_docs : Nat) :
    Except String String := do
  let docs ← retrieve_similar env collection query max_docs
  if docs.isEmpty then
    pure "No relevant context found."
  else
    pure (String.intercalate "\n\n" (contextParts 1 docs))

/-- `store_research`: write one document to the vector store and return
its id. No exception handling: a vector-store failure propagates (and
an empty id list raises `IndexError` on `[0]`). -/
def store_research (env : Env) (collection content : String)
    (metadata : StoreMeta) : Except String String := do
  let ids ← env.add_documents collection content metadata
  match ids with
  | [] => .error "IndexError: list index out of range"
  | id :: _ => pure id

end MemoryManager

/-! ### Per-agent result records -/

/-- Entry of the `safe_results` list the supervisor passes to the
analysis agent. -/
structure SafeResult where
  agent : String
  summary : String
  deriving DecidableEq, Repr

/-- The `safe_content` dict `create_final_report` builds. -/
structure SafeContent where
  research_count : Nat
  analysis_count : Nat
  memory_count : Nat
  total_agents : Nat
  findings_summary : List String
  deriving DecidableEq, Repr

/-- Result dict returned by an agent's `execute`; each agent sets its own
keys, absent keys are `none`. -/
structure AgentResult where
  agent : String
  task : String
  context_analysis : Option String := none
  has_context : Option Bool := none
  findings : Option String := none
  sources_arxiv : Option (List ArxivPaper) := none
  sources_web : Option WebResult := none
  analysis : Option String := none
  processed_data : Option (List SafeResult) := none
  summary : Option String := none
  source_content : Option SafeContent := none
  deriving DecidableEq, Repr

/-! ### MemoryAgent (src/src/agents/memory_agent.py) -/

namespace MemoryAgent

/-- The `context_analysis` narrative when no context is found. -/
def noContextAnalysis (task : String) : String :=
  "\nTask: " ++ task ++
  "\n\nNo specific context found for this query. This appears to be a new research topic.\n" ++
  "The system will proceed with fresh research and analysis.\n\n" ++
  "Recommendation: Gather comprehensive information from research sources \n" ++
  "and build new knowledge base for future queries on this topic.\n"

/-- The `context_analysis` narrative when context was found. -/
def foundContextAnalysis (task context : String) : String :=
  "\nTask: " ++ task ++
  "\n\nFound relevant context from previous research:\n" ++ context ++
  "\n\nThis information can be used to inform current analysis and avoid \n" ++
  "duplicating previous research efforts.\n"

/-- `MemoryAgent.execute`: fetch context from the `context_memory`
collection, build the context narrative, store the query, and return the
memory result. `session_timestamp` models `session_data` (the
supervisor passes `None`, hence timestamp `"unknown"`). -/
def execute (env : Env) (task : String)
    (session_timestamp : Option String := none) :
    Except String AgentResult := do
  let context ← MemoryManager.get_context env "context_memory" task 5
  let context_analysis :=
    if context = "" ∨ context = "No relevant context found." then
      noContextAnalysis task
    else
      foundContextAnalysis task context
  let _ ← MemoryManager.store_research env "context_memory"
    ("Query: " ++ task)
    { agent := "memory", task := task,
      timestamp := some (session_timestamp.getD "unknown") }
  pure { agent := "memory", task := task,
         context_analysis := some context_analysis,
         has_context :=
           some (!(context == "") && !(context == "No relevant context found.")) }

end MemoryAgent

/-! ### ResearchAgent (src/src/agents/research_agent.py) -/

namespace ResearchAgent

/-- The research agent's analysis prompt (f-string over task, context
and both search results). -/
def analysisPrompt (task context arxivText webText : String) : String :=
  "\nTask: " ++ task ++ "\n\nExisting Context:\n" ++ context ++
  "\n\nArXiv Results:\n" ++ arxivText ++ "\n\nWeb Results:\n" ++ webText ++
  "\n\nProvide a structured analysis of findings with key insights.\n"

/-- `ResearchAgent.execute`: fetch context, run both searches, run the
LLM, store the findings (NO exception handling around the store — a
store failure propagates out of `execute`), and return the research
result. -/
def execute (env : Env) (task : String) : Except String AgentResult := do
  let context ← MemoryManager.get_context env "research_memory" task 5
  let arxiv_results ← env.search_arxiv task 3
  let web_results := env.search_web task
  let response ← env.groq_invoke
    (analysisPrompt task context (renderArxivPapers arxiv_results)
      (renderWebResult web_results))
  let _ ← MemoryManager.store_research env "research_memory" response
    { agent := "research", task := task,
      sources := some (arxiv_results.length + web_results.results.length) }
  pure { agent := "research", task := task, findings := some response,
         sources_arxiv := some arxiv_results,
         sources_web := some web_results }

end ResearchAgent

/-! ### AnalysisAgent (src/src/agents/analysis_agent.py) -/

namespace AnalysisAgent

/-- Prompt-text rendering of the `previous_results` dict; `none` models
the Python `data or ...` empty-dict default (abstracts `json.dumps`). -/
def renderAnalysisData : Option (List SafeResult) → String
  | none => "\x7b\x7d"
  | some l =>
    String.intercalate "; "
      (l.map (fun s => "agent: " ++ s.agent ++ ", summary: " ++ s.summary))

def analysisTaskPrompt (task dataText context : String) : String :=
  "\nAnalysis Task: " ++ task ++ "\n\nAvailable Data:\n" ++ dataText ++
  "\n\nRelevant Context:\n" ++ context ++
  "\n\nProvide detailed analysis with:\n1. Key findings\n2. Data patterns\n" ++
  "3. Trends identified\n4. Conclusions\n5. Recommendations\n"

/-- `AnalysisAgent.execute`: fetch context, run the LLM over the task
plus the caller-supplied data, store, and return the analysis result.
`data := none` models being called with `None` (the supervisor always
passes the dict holding `previous_results`); the returned
`processed_data` records exactly the data received. -/
def execute (env : Env) (task : String) (data : Option (List SafeResult)) :
    Except String AgentResult := do
  let context ← MemoryManager.get_context env "analysis_memory" task 5
  let response ← env.gemini_invoke
    (analysisTaskPrompt task (renderAnalysisData data) context)
  let _ ← MemoryManager.store_research env "analysis_memory" response
    { agent := "analysis", task := task,
      data_sources := some (if data.isSome then 1 else 0) }
  pure { agent := "analysis", task := task, analysis := some response,
         processed_data := data }

end AnalysisAgent

/-! ### SummaryAgent (src/src/agents/summary_agent.py) -/

namespace SummaryAgent

/-- Prompt/`str()` rendering of the `safe_content` dict (abstracts the
exact Python formatting). -/
def renderSafeContent (c : SafeContent) : String :=
  "research_count: " ++ toString c.research_count ++
  ", analysis_count: " ++ toString c.analysis_count ++
  ", memory_count: " ++ toString c.memory_count ++
  ", total_agents: " ++ toString c.total_agents ++
  ", findings_summary: " ++ String.intercalate "; " c.findings_summary

def contentText : Option SafeContent → String
  | some c => renderSafeContent c
  | none => "No content provided"

def summaryTaskPrompt (task contentStr context : String) : String :=
  "\nSummary Task: " ++ task ++ "\n\nContent to Summarize:\n" ++ contentStr ++
  "\n\nRelevant Context:\n" ++ context ++
  "\n\nCreate a comprehensive summary with:\n1. Executive Summary\n" ++
  "2. Key Findings\n3. Main Insights\n4. Action Items (if applicable)\n" ++
  "5. Conclusion\n\nFormat as a professional report.\n"

/-- `SummaryAgent.execute`: fetch context, run the LLM, store, return the
summary result. -/
def execute (env : Env) (task : String) (content : Option SafeContent) :
    Except String AgentResult := do
  let context ← MemoryManager.get_context env "summary_memory" task 5
  let response ← env.gemini_invoke
    (summaryTaskPrompt task (contentText content) context)
  let _ ← MemoryManager.store_research env "summary_memory" response
    { agent := "summary", task := task,
      content_length :=
        some (match content with
              | some c => (renderSafeContent c).length
              | none => 0) }
  pure { agent := "summary", task := task, summary := some response,
         source_content := content }

/-- `create_final_report`: build the `safe_content` projection of all
results (per-agent counts plus 200-character excerpts of research
findings and analysis text) and run `execute` on it. -/
def create_final_report (env : Env) (all_results : List AgentResult) :
    Except String AgentResult :=
  let safe_content : SafeContent :=
    { research_count := (all_results.filter (fun r => r.agent == "research")).length
      analysis_count := (all_results.filter (fun r => r.agent == "analysis")).length
      memory_count := (all_results.filter (fun r => r.agent == "memory")).length
      total_agents := all_results.length
      findings_summary := all_results.filterMap (fun r =>
        if r.agent == "research" then
          some ("Research: " ++ strTake (r.findings.getD "No findings") 200 ++ "...")
        else if r.agent == "analysis" then
          some ("Analysis: " ++ strTake (r.analysis.getD "No analysis") 200 ++ "...")
        else none) }
  execute env "Create final comprehensive report" (some safe_content)

end SummaryAgent

/-! ### Supervisor execution (src/src/agents/supervisor.py) and
orchestrator entry point (src/src/main.py) -/

namespace SupervisorAgent

/-- The safe projection the supervisor builds for the analysis agent:
agent kind plus `str(r.get("findings", r.get("context_analysis", "")))`
truncated to 200 characters. -/
def safeResultOf (r : AgentResult) : SafeResult :=
  { agent := r.agent
    summary := strTake (r.findings.getD (r.context_analysis.getD "")) 200 }

/-- The per-iteration dispatch of `execute_workflow` (the if-chain that
assigns `result`): the analysis agent receives the safe projection of
all results so far, the summary agent the full running list. The final
`else` is unreachable for plans produced by `plan_workflow` (in the
source an unknown name would raise `NameError` at
`results.append(result)` on the first iteration). -/
def stepAgent (env : Env) (request name : String)
    (results : List AgentResult) : Except String AgentResult :=
  if name = "memory" then MemoryAgent.execute env request none
  else if name = "research" then ResearchAgent.execute env request
  else if name = "analysis" then
    AnalysisAgent.execute env request (some (results.map safeResultOf))
  else if name = "summary" then SummaryAgent.create_final_report env results
  else .error "NameError: name result is not defined"

/-- The agent-dispatch loop of `execute_workflow`: run each planned
agent in order, appending each result to the running list. -/
def runAgents (env : Env) (request : String) :
    List String → List AgentResult → Except String (List AgentResult)
  | [], results => pure results
  | name :: rest, results => do
    let result ← stepAgent env request name results
    runAgents env request rest (results ++ [result])

/-- The dict `execute_workflow` returns on success. -/
structure SupOutput where
  request : String
  workflow : List String
  results : List AgentResult
  status : String
  deriving DecidableEq, Repr

/-- `execute_workflow`: plan, run the agents in the planned order, and
return the completed-status output. Any exception propagates to the
caller. -/
def execute_workflow (env : Env) (request : String) :
    Except String SupOutput := do
  let workflow ← plan_workflow env.groq_invoke request
  let results ← runAgents env request workflow []
  pure { request := request, workflow := workflow, results := results,
         status := "completed" }

end SupervisorAgent

/-- The failure dict `research()` returns when the workflow raises: the
stringified error, status `"failed"` and the query — and no `results`
key at all (the partially accumulated results are discarded). -/
structure FailOutput where
  error : String
  status : String
  query : String
  deriving DecidableEq, Repr

namespace AutonomousResearchOrchestrator

/-- `research`: run the supervisor workflow, catching any exception and
turning it into the structured failure output. -/
def research (env : Env) (query : String) :
    Sum SupervisorAgent.SupOutput FailOutput :=
  match SupervisorAgent.execute_workflow env query with
  | .ok results => .inl results
  | .error e => .inr { error := e, status := "failed", query := query }

end AutonomousResearchOrchestrator

/-! ## Observations on pipeline outcomes -/

def exceptIsOk {α : Type} : Except String α → Bool
  | .ok _ => true
  | .error _ => false

def statusOf : Except String SupervisorAgent.SupOutput → Option String
  | .ok o => some o.status
  | .error _ => none

def workflowOf : Except String SupervisorAgent.SupOutput → Option (List String)
  | .ok o => some o.workflow
  | .error _ => none

def resultAgentsOf : Except String SupervisorAgent.SupOutput → Option (List String)
  | .ok o => some (o.results.map (fun r => r.agent))
  | .error _ => none

/-- The agent name at position `i` of the resolved workflow. -/
def wfAt (e : Except String SupervisorAgent.SupOutput) (i : Nat) : Option String :=
  match e with
  | .ok o => o.workflow[i]?
  | .error _ => none

/-- The output text of an agent result: the field the producing agent
stores its completion text in. -/
def outputTextOf (r : AgentResult) : String :=
  if r.agent = "memory" then r.context_analysis.getD ""
  else if r.agent = "research" then r.findings.getD ""
  else if r.agent = "analysis" then r.analysis.getD ""
  else r.summary.getD ""

/-- The spec-side safe projection: agent kind plus output text truncated
to 200 characters. -/
def specProject (r : AgentResult) : SafeResult :=
  { agent := r.agent, summary := strTake (outputTextOf r) 200 }

/-- The `previous_results` list actually received by the agent at
position `i` (as recorded in its `processed_data`). -/
def analysisInputAt (e : Except String SupervisorAgent.SupOutput) (i : Nat) :
    Option (List SafeResult) :=
  match e with
  | .ok o => o.results[i]?.bind (fun r => r.processed_data)
  | .error _ => none

/-- The spec-side projection of all results strictly before position
`i`. -/
def specProjectionAt (e : Except String SupervisorAgent.SupOutput) (i : Nat) :
    Option (List SafeResult) :=
  match e with
  | .ok o => some ((o.results.take i).map specProject)
  | .error _ => none

def noSummaryEntry : Option (List SafeResult) → Bool
  | some l => l.all (fun s => s.agent != "summary")
  | none => false

def entriesBounded : Option (List SafeResult) → Bool
  | some l => l.all (fun s => decide (s.summary.length ≤ 200))
  | none => false

/-- Field discipline of produced agent results: the memory agent result
has no `findings` key, the research agent result always has one. -/
def fieldDiscipline (r : AgentResult) : Prop :=
  (r.agent = "memory" → r.findings = none) ∧
  (r.agent = "research" → r.findings.isSome = true)

/-! ### Concrete environments for the agent-pipeline claims -/

/-- Environment whose vector-store WRITE fails while everything else
succeeds (e.g. a read-only database). -/
def storeFailEnv : Env :=
  { groq_invoke := fun _ => .ok "structured findings"
    gemini_invoke := fun _ => .ok "ok"
    similarity_search := fun _ _ _ => .ok []
    add_documents := fun _ _ _ =>
      .error "StoreUnavailable: attempt to write a readonly database"
    search_arxiv := fun _ _ => .ok []
    search_web := fun _ => ⟨[]⟩ }

/-- Environment in which the second agent of the three-stage plan
`[memory, research, summary]` raises an external-call failure. -/
def failingSecondEnv : Env :=
  { groq_invoke := fun _ => .ok "memory research summary"
    gemini_invoke := fun _ => .ok "ok"
    similarity_search := fun _ _ _ => .ok []
    add_documents := fun _ _ _ => .ok ["doc-1"]
    search_arxiv := fun _ _ => .error "ExternalCallFailure: arxiv timeout"
    search_web := fun _ => ⟨[]⟩ }

/-- Environment in which everything succeeds and the planner response
names all four agents. -/
def fullPlanEnv : Env :=
  { groq_invoke := fun _ => .ok "Plan: memory, research, analysis, summary"
    gemini_invoke := fun _ => .ok "synthesized report"
    similarity_search := fun _ _ _ => .ok []
    add_documents := fun _ _ _ => .ok ["doc-1"]
    search_arxiv := fun _ _ => .ok []
    search_web := fun _ => ⟨[]⟩ }

/-! ## Theorems -/

/-- Every successful plan is a filtering of the fixed agent order (the
fallback equals the filter by the always-true predicate). -/
theorem plan_workflow_eq_filter (llm : String → Except String String)
    (request : String) (wf : List String)
    (h : plan_workflow llm request = .ok wf) :
    ∃ p : String → Bool, wf = agentOrder.filter p := by
  unfold plan_workflow at h
  cases hr : llm (planningPrompt request) with
  | error e => rw [hr] at h; exact absurd h (by simp [Except.bind, bind])
  | ok response =>
    rw [hr] at h
    simp only [bind, Except.bind] at h
    by_cases hempty :
        (agentOrder.filter
          (fun name => containsStr (lowerStr response) name)).isEmpty = true
    · refine ⟨fun _ => true, ?_⟩
      rw [hempty] at h
      simp only [if_true, pure, Except.pure, Except.ok.injEq] at h
      subst h; rfl
    · refine ⟨fun name => containsStr (lowerStr response) name, ?_⟩
      rw [Bool.of_not_eq_true hempty] at h
      simp only [Bool.false_eq_true, if_false, pure, Except.pure,
        Except.ok.injEq] at h
      exact h.symm

/-- C1 counterexample: with the fixed planner `allAgentsPlanner`,
`plan_workflow "what is federated learning"` does NOT yield
`["memory", "research", "summary"]` (it yields the full four-stage
plan, because the parse looks at the response text, not at the request
text). -/
theorem plan_workflow_not_request_determined :
    plan_workflow allAgentsPlanner "what is federated learning" ≠
      Except.ok ["memory", "research", "summary"] := by
  decide

/-- C1 (amended): the plan is a deterministic function of the planner's
response text, not of the request text alone: whenever the lowercased
response mentions memory, research and summary but not analysis,
`plan_workflow` returns exactly `["memory", "research", "summary"]`,
whatever the request was. -/
theorem plan_workflow_response_determined
    (llm : String → Except String String) (request response : String)
    (hresp : llm (planningPrompt request) = .ok response)
    (hm : containsStr (lowerStr response) "memory" = true)
    (hr : containsStr (lowerStr response) "research" = true)
    (ha : containsStr (lowerStr response) "analysis" = false)
    (hs : containsStr (lowerStr response) "summary" = true) :
    plan_workflow llm request = .ok ["memory", "research", "summary"] := by
  unfold plan_workflow
  rw [hresp]
  simp only [bind, Except.bind, agentOrder, List.filter, hm, hr, ha, hs]
  rfl

/-- Witness for the amended C1 theorem at a concrete planner and the
request from the spec. -/
theorem plan_workflow_response_determined_witness :
    plan_workflow threeStagePlanner "what is federated learning" =
      .ok ["memory", "research", "summary"] :=
  plan_workflow_response_determined threeStagePlanner
    "what is federated learning" "Check memory, do research, then write a summary."
    rfl (by decide) (by decide) (by decide) (by decide)

/-- C7: when no agent name can be parsed from the planner response (the
keyword filter comes back empty), `plan_workflow` returns the fixed
fallback ordering. -/
theorem plan_workflow_fallback
    (llm : String → Except String String) (request response : String)
    (hresp : llm (planningPrompt request) = .ok response)
    (hempty : agentOrder.filter
        (fun name => containsStr (lowerStr response) name) = []) :
    plan_workflow llm request =
      .ok ["memory", "research", "analysis", "summary"] := by
  unfold plan_workflow
  rw [hresp]
  simp only [bind, Except.bind, hempty, List.isEmpty_nil, if_true]
  rfl

/-- Witness for C7 at a concrete planner whose response parses to the
empty workflow. -/
theorem plan_workflow_fallback_witness :
    plan_workflow unparseablePlanner "mcp server" =
      .ok ["memory", "research", "analysis", "summary"] :=
  plan_workflow_fallback unparseablePlanner "mcp server"
    "I cannot help with that." rfl (by decide)

/-- C10: every successful plan is non-empty, is a subsequence of the
fixed order `["memory", "research", "analysis", "summary"]`, and has no
duplicates. -/
theorem plan_workflow_shape (llm : String → Except String String)
    (request : String) (wf : List String)
    (h : plan_workflow llm request = .ok wf) :
    wf ≠ [] ∧ wf.Sublist agentOrder ∧ wf.Nodup := by
  unfold plan_workflow at h
  cases hr : llm (planningPrompt request) with
  | error e => rw [hr] at h; exact absurd h (by simp [Except.bind, bind])
  | ok response =>
    rw [hr] at h
    simp only [bind, Except.bind] at h
    by_cases hempty :
        (agentOrder.filter
          (fun name => containsStr (lowerStr response) name)).isEmpty = true
    · rw [hempty] at h
      simp only [if_true, pure, Except.pure, Except.ok.injEq] at h
      subst h
      refine ⟨by decide, ?_, by decide⟩
      exact List.Sublist.refl agentOrder
    · rw [Bool.of_not_eq_true hempty] at h
      simp only [Bool.false_eq_true, if_false, pure, Except.pure,
        Except.ok.injEq] at h
      subst h
      refine ⟨?_, List.filter_sublist _, ?_⟩
      · intro hnil
        rw [hnil] at hempty
        exact hempty rfl
      · exact List.Nodup.sublist (List.filter_sublist _) (by decide)

/-- Witness for C10 at a concrete planner: the resulting one-stage plan
is non-empty, a subsequence of the fixed order, and duplicate-free. -/
theorem plan_workflow_shape_witness :
    ["memory"] ≠ ([] : List String) ∧
      List.Sublist ["memory"] agentOrder ∧ List.Nodup ["memory"] :=
  plan_workflow_shape memoryOnlyPlanner "any request" ["memory"] (by decide)

theorem getCollection_setCollection (st : ChromaState) (name : String)
    (docs : List StoredEntry) :
    getCollection (setCollection st name docs) name = docs := by
  unfold getCollection setCollection
  induction st.collections with
  | nil => simp [setAssoc, List.lookup]
  | cons kv t ih =>
    obtain ⟨k, w⟩ := kv
    by_cases hk : k = name
    · simp [setAssoc, hk, List.lookup]
    · have hne : (name == k) = false := by
        rw [beq_eq_false_iff_ne]
        exact fun hc => hk hc.symm
      simp only [setAssoc, if_neg hk, List.lookup, hne]
      exact ih

/-- C9: `store_papers` is total (every Python exception is caught), and
every invocation either reports success, or reports `False` with the
database left exactly as it was — failures are atomic, with no
partial-success signalling. Malformed papers, an unavailable
collection, and a failing `add` all take the second branch. -/
theorem store_papers_total_and_atomic (be : ChromaBackend)
    (papers : List PaperInput) (collection_name : String) (st : ChromaState) :
    (store_papers be papers collection_name st).1 = true ∨
      store_papers be papers collection_name st = (false, st) := by
  unfold store_papers
  by_cases hc : be.create_ok collection_name = false
  · rw [if_pos hc]; exact Or.inr rfl
  · rw [if_neg hc]
    cases hb : buildEntries be papers with
    | error e => exact Or.inr rfl
    | ok entries =>
      dsimp only
      by_cases ha : be.add_ok = false
      · rw [if_pos ha]; exact Or.inr rfl
      · rw [if_neg ha]; exact Or.inl rfl

/-- C8: querying an empty (or never-written, lazily created, or
uncreatable) collection, or one whose backing index raises, returns the
empty list; and `search_papers` is total, so no error ever escapes. -/
theorem search_papers_empty_or_unreachable (be : ChromaBackend)
    (query collection_name : String) (n_results : Nat) (st : ChromaState)
    (h : getCollection st collection_name = [] ∨ be.query_ok = false ∨
      be.create_ok collection_name = false) :
    search_papers be query collection_name n_results st = [] := by
  unfold search_papers
  by_cases hc : be.create_ok collection_name = false
  · rw [if_pos hc]
  · rw [if_neg hc]
    by_cases hq : be.query_ok = false
    · rw [if_pos hq]
    · rw [if_neg hq]
      rcases h with hcoll | hq2 | hc2
      · simp only [hcoll]
        have : ∀ i : Nat, ([] : List StoredEntry).get? i = none := by
          intro i; cases i <;> rfl
        simp [List.filterMap_eq_nil_iff, this]
      · exact absurd hq2 hq
      · exact absurd hc2 hc

/-- Witness for C8: searching a freshly created (empty) database returns
the empty list. -/
theorem search_papers_empty_witness :
    search_papers plainBackend "graph neural networks" "research_papers" 10
      ⟨[]⟩ = [] :=
  search_papers_empty_or_unreachable plainBackend "graph neural networks"
    "research_papers" 10 ⟨[]⟩ (Or.inl rfl)

/-- C2 counterexample: after storing id `2401.00001` twice with
different content, the collection holds exactly one entry with that id —
but its content is the FIRST store's content, not the later one
(`collection.add` skips existing ids instead of upserting). -/
theorem store_twice_keeps_first_content :
    (getCollection stC2 "papers").map (fun e => (e.id, e.document)) =
        [("2401.00001", "A\n\nfirst version")] ∧
      (getCollection stC2 "papers").map (fun e => e.document) ≠
        ["A\n\nsecond version"] := by
  constructor
  · rfl
  · decide

/-- Helper: a successful single-paper store appends via `chromaAdd`. -/
theorem store_papers_single_ok (be : ChromaBackend) (p : PaperRecord)
    (name : String) (st : ChromaState)
    (hnc : ¬ be.create_ok name = false) (hna : ¬ be.add_ok = false) :
    store_papers be [.valid p] name st =
      (true,
        setCollection st name
          (chromaAdd (getCollection st name) [buildEntry be p])) := by
  unfold store_papers
  rw [if_neg hnc,
    show buildEntries be [.valid p] = .ok [buildEntry be p] from rfl]
  dsimp only
  rw [if_neg hna]

/-- C2 (amended): storing a paper with id `x` into a collection that
already holds an entry with id `x` leaves the collection unchanged —
exactly one entry with id `x` remains and its content is the content of
the FIRST store call; re-storing neither duplicates nor overwrites. -/
theorem store_same_id_ignored (be : ChromaBackend) (name x : String)
    (st : ChromaState) (p q : PaperRecord)
    (hpid : p.id = x) (hqid : q.id = x) (hx : x ≠ "")
    (hcreate : be.create_ok name = true) (hadd : be.add_ok = true)
    (hempty : getCollection st name = []) :
    (getCollection
        (store_papers be [.valid q] name
          (store_papers be [.valid p] name st).2).2 name).map
        (fun e => (e.id, e.document)) =
      [(x, p.title ++ "\n\n" ++ p.summary)] := by
  have hnc : ¬ be.create_ok name = false := by rw [hcreate]; simp
  have hna : ¬ be.add_ok = false := by rw [hadd]; simp
  have hid_p : (buildEntry be p).id = x := by
    unfold buildEntry
    simp only [hpid]
    rw [if_pos hx]
  have hid_q : (buildEntry be q).id = x := by
    unfold buildEntry
    simp only [hqid]
    rw [if_pos hx]
  rw [store_papers_single_ok be p name st hnc hna]
  dsimp only
  rw [store_papers_single_ok be q name _ hnc hna]
  dsimp only
  rw [getCollection_setCollection, getCollection_setCollection, hempty]
  unfold chromaAdd
  simp only [List.foldl, List.any_nil, Bool.false_eq_true, if_false,
    List.nil_append, List.any_cons, List.any_nil, Bool.or_false]
  rw [hid_p, hid_q]
  simp only [beq_self_eq_true, if_true, List.map_cons, List.map_nil]
  rw [hid_p]
  unfold buildEntry
  simp

/-- Witness for the amended C2 theorem: the concrete two-store scenario
on an empty database keeps the first body. -/
theorem store_same_id_ignored_witness :
    (getCollection stC2 "papers").map (fun e => (e.id, e.document)) =
      [("2401.00001", "A" ++ "\n\n" ++ "first version")] :=
  store_same_id_ignored plainBackend "papers" "2401.00001" ⟨[]⟩
    { id := "2401.00001", title := "A", summary := "first version" }
    { id := "2401.00001", title := "A", summary := "second version" }
    rfl rfl (by decide) rfl rfl rfl

theorem exceptBind_ok {α β : Type} (x : Except String α)
    (f : α → Except String β) (b : β) (h : (x >>= f) = .ok b) :
    ∃ a, x = .ok a ∧ f a = .ok b := by
  cases x with
  | error e => simp [bind, Except.bind] at h
  | ok a => exact ⟨a, rfl, by simpa [bind, Except.bind] using h⟩

theorem strTake_length_le (s : String) (n : Nat) :
    (strTake s n).length ≤ n := by
  unfold strTake
  show (s.data.take n).length ≤ n
  exact List.length_take_le n s.data

theorem memory_execute_ok (env : Env) (task : String) (ts : Option String)
    (r : AgentResult) (h : MemoryAgent.execute env task ts = .ok r) :
    r.agent = "memory" ∧ r.findings = none := by
  unfold MemoryAgent.execute at h
  obtain ⟨context, hctx, h⟩ := exceptBind_ok _ _ _ h
  try dsimp only at h
  obtain ⟨id, hid, h⟩ := exceptBind_ok _ _ _ h
  dsimp only [pure, Except.pure] at h
  cases h
  exact ⟨rfl, rfl⟩

theorem research_execute_ok (env : Env) (task : String)
    (r : AgentResult) (h : ResearchAgent.execute env task = .ok r) :
    r.agent = "research" ∧ r.findings.isSome = true := by
  unfold ResearchAgent.execute at h
  obtain ⟨context, hctx, h⟩ := exceptBind_ok _ _ _ h
  try dsimp only at h
  obtain ⟨papers, hpap, h⟩ := exceptBind_ok _ _ _ h
  try dsimp only at h
  obtain ⟨resp, hresp, h⟩ := exceptBind_ok _ _ _ h
  try dsimp only at h
  obtain ⟨id, hid, h⟩ := exceptBind_ok _ _ _ h
  dsimp only [pure, Except.pure] at h
  cases h
  exact ⟨rfl, rfl⟩

theorem analysis_execute_ok (env : Env) (task : String)
    (data : Option (List SafeResult)) (r : AgentResult)
    (h : AnalysisAgent.execute env task data = .ok r) :
    r.agent = "analysis" ∧ r.processed_data = data := by
  unfold AnalysisAgent.execute at h
  obtain ⟨context, hctx, h⟩ := exceptBind_ok _ _ _ h
  try dsimp only at h
  obtain ⟨resp, hresp, h⟩ := exceptBind_ok _ _ _ h
  try dsimp only at h
  obtain ⟨id, hid, h⟩ := exceptBind_ok _ _ _ h
  dsimp only [pure, Except.pure] at h
  cases h
  exact ⟨rfl, rfl⟩

theorem summary_report_ok (env : Env) (rs : List AgentResult)
    (r : AgentResult) (h : SummaryAgent.create_final_report env rs = .ok r) :
    r.agent = "summary" := by
  unfold SummaryAgent.create_final_report SummaryAgent.execute at h
  try dsimp only at h
  obtain ⟨context, hctx, h⟩ := exceptBind_ok _ _ _ h
  try dsimp only at h
  obtain ⟨resp, hresp, h⟩ := exceptBind_ok _ _ _ h
  try dsimp only at h
  obtain ⟨id, hid, h⟩ := exceptBind_ok _ _ _ h
  dsimp only [pure, Except.pure] at h
  cases h
  rfl

/-- Structure of a successful `runAgents` pass: one result is appended
per planned name, in order; each result's `agent` field is the planned
name; the memory/research field discipline holds; and an analysis
result's recorded input is exactly the safe projection of all results
accumulated strictly before it. -/
theorem runAgents_ok_spec (env : Env) (request : String) :
    ∀ (names : List String) (acc final : List AgentResult),
      SupervisorAgent.runAgents env request names acc = .ok final →
      ∃ new : List AgentResult,
        final = acc ++ new ∧ new.length = names.length ∧
        ∀ k r, new[k]? = some r →
          names[k]? = some r.agent ∧ fieldDiscipline r ∧
          (r.agent = "analysis" →
            r.processed_data =
              some ((acc ++ new.take k).map SupervisorAgent.safeResultOf)) := by
  intro names
  induction names with
  | nil =>
    intro acc final h
    refine ⟨[], ?_, rfl, ?_⟩
    · have h2 : Except.ok acc = (Except.ok final : Except String (List AgentResult)) := by
        simpa [SupervisorAgent.runAgents, pure, Except.pure] using h
      cases h2
      simp
    · intro k r hk
      simp at hk
  | cons name rest ih =>
    intro acc final h
    unfold SupervisorAgent.runAgents at h
    obtain ⟨r0, hstep, hrest⟩ := exceptBind_ok _ _ _ h
    try dsimp only at hrest
    obtain ⟨new2, hfin, hlen, hspec⟩ := ih (acc ++ [r0]) final hrest
    have hr0 : name = r0.agent ∧ fieldDiscipline r0 ∧
        (r0.agent = "analysis" →
          r0.processed_data =
            some (acc.map SupervisorAgent.safeResultOf)) := by
      unfold SupervisorAgent.stepAgent at hstep
      by_cases hm : name = "memory"
      · rw [if_pos hm] at hstep
        obtain ⟨h1, h2⟩ := memory_execute_ok env request none r0 hstep
        exact ⟨hm.trans h1.symm, ⟨fun _ => h2, fun hc => by simp [h1] at hc⟩,
          fun hc => by simp [h1] at hc⟩
      rw [if_neg hm] at hstep
      by_cases hr : name = "research"
      · rw [if_pos hr] at hstep
        obtain ⟨h1, h2⟩ := research_execute_ok env request r0 hstep
        exact ⟨hr.trans h1.symm, ⟨fun hc => by simp [h1] at hc, fun _ => h2⟩,
          fun hc => by simp [h1] at hc⟩
      rw [if_neg hr] at hstep
      by_cases ha : name = "analysis"
      · rw [if_pos ha] at hstep
        obtain ⟨h1, h2⟩ := analysis_execute_ok env request _ r0 hstep
        exact ⟨ha.trans h1.symm, ⟨fun hc => by simp [h1] at hc,
          fun hc => by simp [h1] at hc⟩, fun _ => h2⟩
      rw [if_neg ha] at hstep
      by_cases hs : name = "summary"
      · rw [if_pos hs] at hstep
        have h1 := summary_report_ok env acc r0 hstep
        exact ⟨hs.trans h1.symm, ⟨fun hc => by simp [h1] at hc,
          fun hc => by simp [h1] at hc⟩, fun hc => by simp [h1] at hc⟩
      rw [if_neg hs] at hstep
      exact absurd hstep (by simp)
    obtain ⟨hname, hfd, hanalysis⟩ := hr0
    refine ⟨r0 :: new2, by rw [hfin]; simp, by simp [hlen], ?_⟩
    intro k r hk
    cases k with
    | zero =>
      simp only [List.getElem?_cons_zero, Option.some.injEq] at hk
      subst hk
      refine ⟨by simp [hname], hfd, fun hc => ?_⟩
      simpa using hanalysis hc
    | succ k =>
      simp only [List.getElem?_cons_succ] at hk
      obtain ⟨hn, hf, ha2⟩ := hspec k r hk
      refine ⟨by simpa using hn, hf, fun hc => ?_⟩
      have h3 := ha2 hc
      rw [h3]
      simp [List.take_succ_cons, List.append_assoc]

/-- Position structure of filtered plans: anything strictly before an
`"analysis"` entry is `"memory"` or `"research"`. -/
theorem filter_before_analysis (p : String → Bool) (i j : Nat) (hji : j < i)
    (hi : (agentOrder.filter p)[i]? = some "analysis") :
    (agentOrder.filter p)[j]? = some "memory" ∨
      (agentOrder.filter p)[j]? = some "research" := by
  have hmem : "analysis" ∈ agentOrder.filter p := List.getElem?_mem hi
  rw [List.mem_filter] at hmem
  have ha : p "analysis" = true := hmem.2
  cases hm : p "memory" <;> cases hr : p "research" <;> cases hs : p "summary" <;>
    simp only [agentOrder, List.filter_cons, hm, hr, ha, hs, if_true, if_false,
      Bool.false_eq_true, List.filter_nil] at hi ⊢ <;>
  · have hb := (List.getElem?_eq_some_iff.mp hi).1
    simp only [List.length_cons, List.length_nil] at hb
    interval_cases i <;>
      first
        | exact absurd hi (by decide)
        | (interval_cases j <;> first | exact absurd hji (by omega) | decide)

/-- C3 counterexample: when the memory write of the research agent's
output fails, `ResearchAgent.execute` does NOT return its result — the
store error propagates and the whole `execute` fails (there is no
try/except around `store_research`). -/
theorem research_store_failure_fails_execute :
    ResearchAgent.execute storeFailEnv "quantum error correction" =
      .error "StoreUnavailable: attempt to write a readonly database" := by
  rfl

/-- C3 (amended): a failure raised by the memory write of the agent's
output propagates out of `execute` unchanged: when context retrieval,
both searches and the completion call succeed but `store_research`
raises `e`, `ResearchAgent.execute` fails with exactly `e` and returns
no `AgentResult`. -/
theorem research_store_failure_propagates (env : Env)
    (task ctx resp e : String) (papers : List ArxivPaper)
    (hctx : MemoryManager.get_context env "research_memory" task 5 = .ok ctx)
    (harxiv : env.search_arxiv task 3 = .ok papers)
    (hllm : env.groq_invoke
        (ResearchAgent.analysisPrompt task ctx (renderArxivPapers papers)
          (renderWebResult (env.search_web task))) = .ok resp)
    (hstore : MemoryManager.store_research env "research_memory" resp
        { agent := "research", task := task,
          sources :=
            some (papers.length + (env.search_web task).results.length) } =
      .error e) :
    ResearchAgent.execute env task = .error e := by
  unfold ResearchAgent.execute
  simp only [bind, Except.bind, hctx, harxiv, hllm, hstore]

/-- Witness for the amended C3 theorem at a concrete environment whose
store write raises. -/
theorem research_store_failure_propagates_witness :
    ResearchAgent.execute storeFailEnv "protein folding" =
      .error "StoreUnavailable: attempt to write a readonly database" :=
  research_store_failure_propagates storeFailEnv "protein folding"
    "No relevant context found." "structured findings"
    "StoreUnavailable: attempt to write a readonly database" []
    rfl rfl rfl rfl

/-- C4: when the planned pipeline raises at any agent step, `research()`
returns the structured failure dict: status `"failed"`, the raised
error's message, and the query — and (structurally, `FailOutput` has no
`results` field) no results entry for any agent: the partial results
accumulated inside `runAgents` are discarded. -/
theorem research_failed_shape (env : Env) (query : String)
    (wf : List String) (e : String)
    (hplan : plan_workflow env.groq_invoke query = .ok wf)
    (hfail : SupervisorAgent.runAgents env query wf [] = .error e) :
    AutonomousResearchOrchestrator.research env query =
      Sum.inr { error := e, status := "failed", query := query } := by
  unfold AutonomousResearchOrchestrator.research
    SupervisorAgent.execute_workflow
  simp only [bind, Except.bind, hplan, hfail]

/-- Witness for C4: with a three-stage plan whose second agent raises,
`research` returns exactly the failure dict with that error text. -/
theorem research_failed_shape_witness :
    AutonomousResearchOrchestrator.research failingSecondEnv
        "what is mcp server" =
      Sum.inr { error := "ExternalCallFailure: arxiv timeout",
                status := "failed", query := "what is mcp server" } :=
  research_failed_shape failingSecondEnv "what is mcp server"
    ["memory", "research", "summary"] "ExternalCallFailure: arxiv timeout"
    rfl rfl

/-- C6: a request that completes without an exception has status
`"completed"` and its results list carries exactly one result per
planned workflow entry, in plan order (so in particular the two lists
have equal length). -/
theorem execute_workflow_completed (env : Env) (request : String)
    (h : exceptIsOk (SupervisorAgent.execute_workflow env request) = true) :
    statusOf (SupervisorAgent.execute_workflow env request) =
        some "completed" ∧
      resultAgentsOf (SupervisorAgent.execute_workflow env request) =
        workflowOf (SupervisorAgent.execute_workflow env request) := by
  cases hce : SupervisorAgent.execute_workflow env request with
  | error e => rw [hce] at h; simp [exceptIsOk] at h
  | ok out =>
    have hdec := hce
    unfold SupervisorAgent.execute_workflow at hdec
    obtain ⟨wf, hplan, hdec⟩ := exceptBind_ok _ _ _ hdec
    try dsimp only at hdec
    obtain ⟨rs, hrun, hdec⟩ := exceptBind_ok _ _ _ hdec
    try dsimp only [pure, Except.pure] at hdec
    cases hdec
    simp only [statusOf, resultAgentsOf, workflowOf]
    refine ⟨by simp, ?_⟩
    obtain ⟨new, hfin, hlen, hspec⟩ := runAgents_ok_spec env request wf [] rs hrun
    simp only [List.nil_append] at hfin
    subst hfin
    congr 1
    apply List.ext_getElem?
    intro n
    rw [List.getElem?_map]
    cases hr : rs[n]? with
    | some r =>
      have hn := (hspec n r hr).1
      simp [hn.symm]
    | none =>
      have hlen2 : wf.length ≤ n := by
        have := List.getElem?_eq_none_iff.mp hr
        omega
      simp [List.getElem?_eq_none hlen2]

/-- Witness for C6 on a concrete all-success run of the full four-stage
pipeline. -/
theorem execute_workflow_completed_witness :
    statusOf (SupervisorAgent.execute_workflow fullPlanEnv
        "mcp server protocol") = some "completed" ∧
      resultAgentsOf (SupervisorAgent.execute_workflow fullPlanEnv
        "mcp server protocol") =
        workflowOf (SupervisorAgent.execute_workflow fullPlanEnv
          "mcp server protocol") :=
  execute_workflow_completed fullPlanEnv "mcp server protocol" rfl

/-- C5: whenever position `i` of the resolved workflow is the analysis
agent, the `previous_results` context it receives is exactly the safe
projection — agent kind plus output text truncated to 200 characters —
of the results of the agents that executed strictly before it, in
order; no entry comes from the summary agent, and every entry is at
most 200 characters. -/
theorem analysis_receives_prior_projection (env : Env) (request : String)
    (i : Nat)
    (h : wfAt (SupervisorAgent.execute_workflow env request) i =
      some "analysis") :
    analysisInputAt (SupervisorAgent.execute_workflow env request) i =
        specProjectionAt (SupervisorAgent.execute_workflow env request) i ∧
      noSummaryEntry
        (analysisInputAt (SupervisorAgent.execute_workflow env request) i) =
          true ∧
      entriesBounded
        (analysisInputAt (SupervisorAgent.execute_workflow env request) i) =
          true := by
  cases hce : SupervisorAgent.execute_workflow env request with
  | error e => rw [hce] at h; simp [wfAt] at h
  | ok out =>
    rw [hce] at h
    have hdec := hce
    unfold SupervisorAgent.execute_workflow at hdec
    obtain ⟨wf, hplan, hdec⟩ := exceptBind_ok _ _ _ hdec
    try dsimp only at hdec
    obtain ⟨rs, hrun, hdec⟩ := exceptBind_ok _ _ _ hdec
    try dsimp only [pure, Except.pure] at hdec
    cases hdec
    simp only [wfAt] at h
    obtain ⟨p, hwfp⟩ := plan_workflow_eq_filter _ _ _ hplan
    obtain ⟨new, hfin, hlen, hspec⟩ := runAgents_ok_spec env request wf [] rs hrun
    simp only [List.nil_append] at hfin hspec
    subst hfin
    obtain ⟨hi_lt_wf, hival⟩ := List.getElem?_eq_some_iff.mp h
    have hi_lt_rs : i < rs.length := by omega
    obtain ⟨ri, hri⟩ : ∃ ri, rs[i]? = some ri :=
      ⟨_, List.getElem?_eq_getElem hi_lt_rs⟩
    obtain ⟨hni, hfdi, hai⟩ := hspec i ri hri
    have hag : ri.agent = "analysis" := by
      rw [hni] at h
      exact Option.some.inj h
    have hpd := hai hag
    have hprior : ∀ a ∈ rs.take i,
        (a.agent = "memory" ∧ a.findings = none) ∨
          (a.agent = "research" ∧ a.findings.isSome = true) := by
      intro a hmem
      obtain ⟨j, hj⟩ := List.mem_iff_getElem?.mp hmem
      have hj_lt : j < i := by
        by_contra hge
        push_neg at hge
        have hnone : (rs.take i)[j]? = none := by
          apply List.getElem?_eq_none
          have := List.length_take_le i rs
          omega
        rw [hnone] at hj
        cases hj
      have hj_rs : rs[j]? = some a := by
        rw [List.getElem?_take_of_lt hj_lt] at hj
        exact hj
      obtain ⟨hnj, hfdj, -⟩ := hspec j a hj_rs
      have horder := filter_before_analysis p i j hj_lt
        (by rw [← hwfp]; exact h)
      rw [← hwfp] at horder
      rcases horder with h2 | h2
      · left
        have hagj : a.agent = "memory" := by
          rw [hnj] at h2
          exact Option.some.inj h2
        exact ⟨hagj, hfdj.1 hagj⟩
      · right
        have hagj : a.agent = "research" := by
          rw [hnj] at h2
          exact Option.some.inj h2
        exact ⟨hagj, hfdj.2 hagj⟩
    have hmapeq : (rs.take i).map SupervisorAgent.safeResultOf =
        (rs.take i).map specProject := by
      apply List.map_congr_left
      intro a hmem
      rcases hprior a hmem with ⟨hag2, hfnd⟩ | ⟨hag2, hsm⟩
      · unfold SupervisorAgent.safeResultOf specProject outputTextOf
        rw [hag2, hfnd]
        simp
      · obtain ⟨f, hf⟩ := Option.isSome_iff_exists.mp hsm
        unfold SupervisorAgent.safeResultOf specProject outputTextOf
        rw [hag2, hf]
        simp
    refine ⟨?_, ?_, ?_⟩
    · simp only [analysisInputAt, specProjectionAt]
      rw [hri]
      simp only [Option.some_bind]
      rw [hpd, hmapeq]
    · simp only [analysisInputAt]
      rw [hri]
      simp only [Option.some_bind]
      rw [hpd]
      simp only [noSummaryEntry, List.all_eq_true]
      intro s hs
      obtain ⟨a, hmem, hsa⟩ := List.mem_map.mp hs
      rcases hprior a hmem with ⟨hag2, -⟩ | ⟨hag2, -⟩ <;>
        · rw [← hsa]
          unfold SupervisorAgent.safeResultOf
          simp [hag2]
    · simp only [analysisInputAt]
      rw [hri]
      simp only [Option.some_bind]
      rw [hpd]
      simp only [entriesBounded, List.all_eq_true]
      intro s hs
      obtain ⟨a, hmem, hsa⟩ := List.mem_map.mp hs
      rw [← hsa]
      unfold SupervisorAgent.safeResultOf
      simp only [decide_eq_true_eq]
      exact strTake_length_le _ 200

/-- Witness for C5 on the concrete all-success four-stage run: position
2 of the plan is the analysis agent, and its received context is the
projection of the memory and research results only. -/
theorem analysis_receives_prior_projection_witness :
    analysisInputAt (SupervisorAgent.execute_workflow fullPlanEnv
        "survey of federated learning trends") 2 =
        specProjectionAt (SupervisorAgent.execute_workflow fullPlanEnv
          "survey of federated learning trends") 2 ∧
      noSummaryEntry
        (analysisInputAt (SupervisorAgent.execute_workflow fullPlanEnv
          "survey of federated learning trends") 2) = true ∧
      entriesBounded
        (analysisInputAt (SupervisorAgent.execute_workflow fullPlanEnv
          "survey of federated learning trends") 2) = true :=
  analysis_receives_prior_projection fullPlanEnv
    "survey of federated learning trends" 2 rfl
